import Mathlib

/-
Verification of the paste-html-to-govspeak conversion core
(src/html-to-govspeak.js) against its design specification.

The repository configures a generic HTML-to-markdown rule engine (the
Turndown dependency) with custom rules, and post-processes its output.
The custom rules, the blank replacement, the identity escape, the strip
list and the post-processing functions are translated here directly from
src/html-to-govspeak.js.  The rule engine itself (tree traversal, rule
dispatch, fragment joining) is a dependency that is not part of the
repository sources; those parts are modelled from the specification, and
are marked `Modelled from the spec:` in their doc comments.

Strings are processed over their underlying character lists so that every
definition evaluates inside the kernel.
-/

set_option maxRecDepth 100000

namespace Govspeak

/-! ## Character classes and string helpers -/

/-- The JavaScript whitespace class (regex `\s`, also the set trimmed by
`String.prototype.trim`): ASCII whitespace plus the Unicode space
separators, line separators and the BOM. -/
def isJsWs (c : Char) : Bool :=
  c = ' ' ∨ c = '\t' ∨ c = '\n' ∨ c = '\r' ∨ c = '\x0b' ∨ c = '\x0c' ∨
  c = '\u00a0' ∨ c = '\u1680' ∨ ('\u2000' ≤ c ∧ c ≤ '\u200a') ∨
  c = '\u2028' ∨ c = '\u2029' ∨ c = '\u202f' ∨ c = '\u205f' ∨
  c = '\u3000' ∨ c = '\ufeff'

/-- Newline character test. -/
def isNl (c : Char) : Bool := c = '\n'

/-- The character class `[\t\r\n]` used by the engine's final leading trim. -/
def isTabCrNl (c : Char) : Bool := c = '\t' ∨ c = '\r' ∨ c = '\n'

/-- Remove the trailing run of characters satisfying `p`. -/
def dropTrailingWhile (p : Char → Bool) (l : List Char) : List Char :=
  (l.reverse.dropWhile p).reverse

/-- JavaScript `String.prototype.trim` on a character list. -/
def trimChars (l : List Char) : List Char :=
  dropTrailingWhile isJsWs (l.dropWhile isJsWs)

/-- JavaScript `String.prototype.trim`. -/
def jsTrimString (s : String) : String := String.mk (trimChars s.data)

/-- Whether the string contains a whitespace character (regex `/\s/.test`). -/
def hasJsWs (s : String) : Bool := s.data.any isJsWs

/-- Whether the whole string is whitespace (regex `/^\s*$/.test`). -/
def allJsWs (s : String) : Bool := s.data.all isJsWs

/-- Whether the string starts with a whitespace character. -/
def startsWithWs (s : String) : Bool :=
  match s.data with
  | [] => false
  | c :: _ => isJsWs c

/-- Whether the string ends with a whitespace character. -/
def endsWithWs (s : String) : Bool :=
  match s.data.reverse with
  | [] => false
  | c :: _ => isJsWs c

/-- Whether the string ends with a newline (regex `/\n$/.test`). -/
def endsWithNl (s : String) : Bool :=
  match s.data.reverse with
  | '\n' :: _ => true
  | _ => false

/-- Whether the string ends with the two characters `](` (the
`cleanUpNestedLinks` filter's regex `/\]\($/`). -/
def endsWithLinkStart (s : String) : Bool :=
  match s.data.reverse with
  | '(' :: ']' :: _ => true
  | _ => false

/-- String membership in a list, by decidable equality. -/
def memStr (s : String) : List String → Bool
  | [] => false
  | x :: xs => if x = s then true else memStr s xs

/-! ## Fragment joining (rule engine) -/

/-- Length of the leading newline run. -/
def newlineRunStart (s : String) : Nat := (s.data.takeWhile isNl).length

/-- Length of the trailing newline run. -/
def newlineRunEnd (s : String) : Nat := (s.data.reverse.takeWhile isNl).length

/-- Modelled from the spec: fragment joining in the rule engine (the
Turndown dependency configured by src/html-to-govspeak.js; the engine is
not among the repository sources).  Adjacent fragments are joined on the
larger of the two adjoining newline runs, capped at a blank line (two
newlines): this realises the block-element blank-line separator semantics
of spec section 4.2. -/
def joinFrags (a b : String) : String :=
  let s1 := String.mk (dropTrailingWhile isNl a.data)
  let s2 := String.mk (b.data.dropWhile isNl)
  let n := min 2 (max (newlineRunEnd a) (newlineRunStart b))
  s1 ++ String.mk (List.replicate n '\n') ++ s2

/-- Modelled from the spec: the engine's final output cleanup (leading
`[\t\r\n]+` and trailing whitespace removed) before the repository's own
post-processing runs. -/
def engineTrim (s : String) : String :=
  String.mk (dropTrailingWhile isJsWs (s.data.dropWhile isTabCrNl))

/-! ## Post-processing (src/html-to-govspeak.js lines 195-219) -/

/-- Consume as many `"  \n"` groups as possible (the `(  \n)+` part of the
`removeBrParagraphs` regex; the `br` option is the default two spaces).
Returns the number of groups and the rest of the input. -/
def eatBrGroups : List Char → Nat × List Char
  | ' ' :: ' ' :: '\n' :: rest =>
    let r := eatBrGroups rest
    (r.1 + 1, r.2)
  | l => (0, l)

/-- One left-to-right pass of the global regex replace
`govspeak.replace(/\n(  \n)+\n?/g, '\n')`, with fuel bounding the scan
(fuel equal to the input length always suffices, as every step consumes at
least one character). -/
def removeBrCore : Nat → List Char → List Char
  | 0, l => l
  | _, [] => []
  | fuel + 1, '\n' :: rest =>
    match eatBrGroups rest with
    | (0, _) => '\n' :: removeBrCore fuel rest
    | (_ + 1, r) =>
      match r with
      | '\n' :: r2 => '\n' :: removeBrCore fuel r2
      | _ => '\n' :: removeBrCore fuel r
  | fuel + 1, c :: rest => c :: removeBrCore fuel rest

/-- `removeBrParagraphs` from src/html-to-govspeak.js lines 195-205:
collapses paragraphs that contain only a line-break marker. -/
def removeBrParagraphs (govspeak : String) : String :=
  String.mk (removeBrCore govspeak.data.length govspeak.data)

/-- One left-to-right pass of the global regex replace
`govspeak.replace(/\d\.\s(#{2,3})/g, '$1')` (greedy `#{2,3}`), with fuel
bounding the scan as in `removeBrCore`. -/
def extractCore : Nat → List Char → List Char
  | 0, l => l
  | _, [] => []
  | fuel + 1, d :: '.' :: w :: '#' :: '#' :: rest =>
    if d.isDigit && isJsWs w then
      match rest with
      | '#' :: rest2 => '#' :: '#' :: '#' :: extractCore fuel rest2
      | _ => '#' :: '#' :: extractCore fuel rest
    else d :: extractCore fuel ('.' :: w :: '#' :: '#' :: rest)
  | fuel + 1, c :: rest => c :: extractCore fuel rest

/-- `extractHeadingsFromLists` from src/html-to-govspeak.js lines 207-212:
rewrites ordered-list-numbered headings to the bare heading marker. -/
def extractHeadingsFromLists (govspeak : String) : String :=
  String.mk (extractCore govspeak.data.length govspeak.data)

/-- `postProcess` from src/html-to-govspeak.js lines 214-219: heading
de-listing, then br-paragraph removal, then a whole-document trim. -/
def postProcess (govspeak : String) : String :=
  let govspeakWithExtractedHeadings := extractHeadingsFromLists govspeak
  let brsRemoved := removeBrParagraphs govspeakWithExtractedHeadings
  let whitespaceStripped := jsTrimString brsRemoved
  whitespaceStripped

/-- The post-processing pipeline in the order the specification describes
it (orphaned line-break collapse first, then heading de-listing, then
trim); written from the spec wording, for comparison with `postProcess`. -/
def postProcessClaimedOrder (govspeak : String) : String :=
  jsTrimString (extractHeadingsFromLists (removeBrParagraphs govspeak))

/-! ## The abbreviation accumulator (src/html-to-govspeak.js lines 55-76)

The `abbr` rule stores `content → title` in a plain JavaScript object
(`this.references`) and flushes it with a `for...in` loop in its `append`
function.  A plain object is modelled as an insertion-ordered association
list together with JavaScript's own-property semantics: assigning to the
key `__proto__` is a silent no-op (it hits the `Object.prototype`
accessor with a non-object value), and key enumeration lists array-index
keys (canonical decimal integers below 2^32 - 1) first in ascending
numeric order, then the remaining keys in insertion order. -/

/-- The accumulator state of the `abbr` rule. -/
abbrev Refs := List (String × String)

/-- Assignment to a plain-object property other than `__proto__`: update
in place if present (keeping its position), else append. -/
def jsSetRaw : Refs → String → String → Refs
  | [], k, v => [(k, v)]
  | (k0, v0) :: rest, k, v =>
    if k0 = k then (k, v) :: rest else (k0, v0) :: jsSetRaw rest k v

/-- JavaScript property assignment `obj[k] = v` on a plain object:
`__proto__` with a string value is silently ignored. -/
def jsSet (refs : Refs) (k v : String) : Refs :=
  if k = "__proto__" then refs else jsSetRaw refs k v

/-- Decimal value of a digit list. -/
def digitsVal (l : List Char) : Nat :=
  l.foldl (fun a c => a * 10 + (c.toNat - 48)) 0

/-- Whether a string is an array-index property key: the canonical decimal
form (no leading zero except `"0"` itself) of an integer below 2^32 - 1. -/
def isArrayIndexKey (s : String) : Bool :=
  match s.data with
  | [] => false
  | ['0'] => true
  | c :: rest =>
    c.isDigit && !(c = '0') && rest.all Char.isDigit &&
      digitsVal (c :: rest) < 4294967295

/-- Insert a key into a list sorted by ascending numeric value. -/
def insertIndexKey (k : String) : List String → List String
  | [] => [k]
  | k0 :: rest =>
    if digitsVal k.data ≤ digitsVal k0.data then k :: k0 :: rest
    else k0 :: insertIndexKey k rest

/-- Sort array-index keys by ascending numeric value. -/
def sortIndexKeys : List String → List String
  | [] => []
  | k :: rest => insertIndexKey k (sortIndexKeys rest)

/-- JavaScript own-key enumeration order (`for...in` over a plain object):
array-index keys in ascending numeric order first, then the remaining
keys in insertion order. -/
def jsKeys (refs : Refs) : List String :=
  let ks := refs.map Prod.fst
  sortIndexKeys (ks.filter isArrayIndexKey) ++
    ks.filter (fun k => !(isArrayIndexKey k))

/-- Property lookup `obj[k]` (empty string when absent; the rule only
reads keys it has stored). -/
def jsGet : Refs → String → String
  | [], _ => ""
  | (k0, v) :: rest, k => if k0 = k then v else jsGet rest k

/-- The `abbr` rule's `append` function (src lines 64-75): nothing when no
references were recorded; otherwise a blank line followed by one
`*[ABBR]: definition` line per reference in enumeration order, and the
accumulator is reset.  Returns the appended text and the accumulator
state the rule object is left with. -/
def abbrAppend (refs : Refs) : String × Refs :=
  if refs = [] then ("", refs)
  else
    ("\n\n" ++
       (jsKeys refs).foldl
         (fun acc k => acc ++ "*[" ++ k ++ "]: " ++ jsGet refs k ++ "\n") "",
     [])

/-- The `abbr` rule's `replacement` function (src lines 59-62): emit the
converted content unchanged and record `content → title`. -/
def abbrReplacement (content title : String) (refs : Refs) : String × Refs :=
  (content, jsSet refs content title)

/-! ## Custom rule replacement functions (src/html-to-govspeak.js) -/

/-- `service.escape` (src line 38): escaping is disabled, the identity. -/
def escapeFn (s : String) : String := s

/-- The `link` rule's `replacement` (src lines 46-52): `[text](href)`,
or nothing when the converted content trims to the empty string. -/
def linkReplacement (content href : String) : String :=
  if jsTrimString content = "" then ""
  else "[" ++ content ++ "](" ++ href ++ ")"

/-- The `heading` rule's `replacement` (src lines 83-95): `charAt(1)` of
the node name picks the output marker (h1/h2 level 2, h3/h4/h5 level 3,
anything else none), wrapped in blank lines.  The DOM `nodeName` is the
upper-case tag; its character at index 1 is the same digit as in the
lower-case tag used here. -/
def headingReplacement (nodeName content : String) : String :=
  let number := (nodeName.data.drop 1).head?
  let marker : String :=
    if number = some '1' ∨ number = some '2' then "## "
    else if number = some '3' ∨ number = some '4' ∨ number = some '5' then "### "
    else ""
  "\n\n" ++ marker ++ content ++ "\n\n"

/-- The three-space `listIndent` option passed to the service (src line 5). -/
def listIndent : String := "   "

/-- Indent every line after a newline by `listIndent`
(the `.replace(/\n/gm, ...)` steps of the list rules). -/
def indentNl : List Char → List Char
  | [] => []
  | '\n' :: r => '\n' :: ' ' :: ' ' :: ' ' :: indentNl r
  | c :: r => c :: indentNl r

/-- Replace a trailing newline run by a single newline
(`.replace(/\n+$/, '\n')` in the `listItems` rule). -/
def collapseTrailingNl (l : List Char) : List Char :=
  match dropTrailingWhile isNl l with
  | r => if r = l then l else r ++ ['\n']

/-- The content transformation of the `listItems` rule (src lines 175-178):
drop leading newlines, collapse trailing newlines to one, indent nested
lines. -/
def listItemContent (content : String) : String :=
  String.mk (indentNl (collapseTrailingNl (content.data.dropWhile isNl)))

/-- The `listItems` rule's `replacement` (src lines 174-192) given the
marker computed from the parent and the existence of a next sibling. -/
def listItemReplacement (content marker : String) (hasNext : Bool) : String :=
  let c := listItemContent content
  marker ++ c ++ (if hasNext && !(endsWithNl c) then "\n" else "")

/-- The `invalidNestedLists` rule's `replacement` (src lines 156-164):
strip surrounding newlines, indent the whole block one unit, trailing
newline. -/
def invalidNestedListsReplacement (content : String) : String :=
  listIndent ++
    String.mk (indentNl (dropTrailingWhile isNl (content.data.dropWhile isNl))) ++
    "\n"

/-! ## The parsed document tree

Modelled from the spec (section 3): a node is either text or an element
with a case-normalised (lower-case) tag name, an attribute mapping and an
ordered child list.  The child list is a mutually inductive type so that
all tree functions are structurally recursive and evaluate in the
kernel. -/

mutual
/-- A node of the parsed input tree. -/
inductive Dom : Type where
  | text : String → Dom
  | elem : String → List (String × String) → DomList → Dom

/-- An ordered list of sibling nodes. -/
inductive DomList : Type where
  | nil : DomList
  | cons : Dom → DomList → DomList
end

/-- Build a `DomList` from a `List`. -/
def dl : List Dom → DomList
  | [] => .nil
  | n :: r => .cons n (dl r)

/-- Text node shorthand. -/
def txt (s : String) : Dom := .text s

/-- Element shorthand without attributes. -/
def el (tag : String) (cs : List Dom) : Dom := .elem tag [] (dl cs)

/-- Element shorthand with attributes. -/
def elA (tag : String) (attrs : List (String × String)) (cs : List Dom) : Dom :=
  .elem tag attrs (dl cs)

mutual
/-- DOM `textContent`: concatenation of all descendant text. -/
def textContent : Dom → String
  | .text s => s
  | .elem _ _ cs => textContentList cs

/-- `textContent` of a sibling list. -/
def textContentList : DomList → String
  | .nil => ""
  | .cons n r => textContent n ++ textContentList r
end

/-- `getAttribute`: first binding of the name, if any. -/
def getAttr (attrs : List (String × String)) (name : String) : Option String :=
  match attrs with
  | [] => none
  | (k, v) :: rest => if k = name then some v else getAttr rest name

/-- JavaScript truthiness of a `getAttribute` result: present and not the
empty string. -/
def attrTruthy (attrs : List (String × String)) (name : String) : Bool :=
  match getAttr attrs name with
  | none => false
  | some v => !(v = "")

/-- `elementsToRemove` (src lines 21-30): the tags stripped from output. -/
def elementsToRemove : List String :=
  ["title", "script", "noscript", "style", "video", "audio", "object", "iframe"]

mutual
/-- Modelled from the spec (section 4.1): elements of the strip set are
removed from the tree before traversal, recursively. -/
def stripList : DomList → DomList
  | .nil => .nil
  | .cons (.text s) rest => .cons (.text s) (stripList rest)
  | .cons (.elem t a cs) rest =>
    if memStr t elementsToRemove then stripList rest
    else .cons (.elem t a (stripList cs)) (stripList rest)
end

/-- The standard HTML block elements (the engine's `isBlock` test). -/
def blockTags : List String :=
  ["address", "article", "aside", "audio", "blockquote", "body", "canvas",
   "center", "dd", "dir", "div", "dl", "dt", "fieldset", "figcaption",
   "figure", "footer", "form", "frameset", "h1", "h2", "h3", "h4", "h5",
   "h6", "header", "hgroup", "hr", "html", "isindex", "li", "main", "menu",
   "nav", "noframes", "noscript", "ol", "output", "p", "pre", "section",
   "table", "tbody", "td", "tfoot", "th", "thead", "tr", "ul"]

/-- The HTML void elements (the engine's `isVoid` test). -/
def voidTags : List String :=
  ["area", "base", "br", "col", "command", "embed", "hr", "img", "input",
   "keygen", "link", "meta", "param", "source", "track", "wbr"]

/-- Elements the engine keeps even when blank (`isMeaningfulWhenBlank`). -/
def meaningfulWhenBlankTags : List String :=
  ["a", "table", "thead", "tbody", "tfoot", "th", "td", "iframe", "script",
   "audio", "video"]

/-- Whether a node is a block element. -/
def isBlockNode : Dom → Bool
  | .text _ => false
  | .elem t _ _ => memStr t blockTags

/-- Whether a node is an `li` element (the `listItems` numbering filter). -/
def isLiElem : Dom → Bool
  | .elem t _ _ => t = "li"
  | .text _ => false

mutual
/-- Whether an element has a void element among its descendants. -/
def hasVoidIn : DomList → Bool
  | .nil => false
  | .cons (.text _) rest => hasVoidIn rest
  | .cons (.elem t _ cs) rest =>
    memStr t voidTags || hasVoidIn cs || hasVoidIn rest
end

mutual
/-- Whether an element has a meaningful-when-blank descendant. -/
def hasMeaningfulIn : DomList → Bool
  | .nil => false
  | .cons (.text _) rest => hasMeaningfulIn rest
  | .cons (.elem t _ cs) rest =>
    memStr t meaningfulWhenBlankTags || hasMeaningfulIn cs || hasMeaningfulIn rest
end

/-- Modelled from the spec (section 4.2): an element is blank when its
text is all whitespace and neither it nor any descendant is void or
meaningful when blank; blank nodes get the `blankReplacement`. -/
def isBlankNode : Dom → Bool
  | .text _ => false
  | .elem t _ cs =>
    !(memStr t voidTags) && !(memStr t meaningfulWhenBlankTags) &&
      allJsWs (textContentList cs) && !(hasVoidIn cs) && !(hasMeaningfulIn cs)

/-! ## Traversal context and flanking whitespace -/

/-- Whether a sibling list contains an element node. -/
def hasElem : DomList → Bool
  | .nil => false
  | .cons (.elem _ _ _) _ => true
  | .cons (.text _) rest => hasElem rest

/-- Whether a sibling list is empty. -/
def isNilList : DomList → Bool
  | .nil => true
  | .cons _ _ => false

/-- Tag of the nearest preceding element sibling (`previousElementSibling`),
given the previous siblings nearest first. -/
def prevElemTag : List Dom → Option String
  | [] => none
  | .text _ :: rest => prevElemTag rest
  | .elem t _ _ :: _ => some t

/-- Whether the immediately previous sibling exists and its text ends in
`](` (the `cleanUpNestedLinks` filter, src lines 135-139). -/
def prevSibEndsLinkStart : List Dom → Bool
  | [] => false
  | p :: _ => endsWithLinkStart (textContent p)

/-- Traversal context of a node: the parent's tag (none at the root), the
previous siblings nearest first, and the following siblings in order. -/
structure Ctx where
  parentTag : Option String
  prevRev : List Dom
  next : DomList

/-- Modelled from the spec (section 3): whether whitespace flanks the node
on the left, i.e. the previous sibling is text ending in whitespace or a
non-block element whose text ends in whitespace. -/
def flankedLeft : List Dom → Bool
  | [] => false
  | .text s :: _ => endsWithWs s
  | .elem t a cs :: _ =>
    !(memStr t blockTags) && endsWithWs (textContent (.elem t a cs))

/-- Whitespace flanking on the right, symmetrically. -/
def flankedRight : DomList → Bool
  | .nil => false
  | .cons (.text s) _ => startsWithWs s
  | .cons (.elem t a cs) _ =>
    !(memStr t blockTags) && startsWithWs (textContent (.elem t a cs))

/-- Modelled from the spec (section 3): the leading flanking-whitespace
flag of an inline node — its own text starts with whitespace not already
provided by the left sibling.  Block nodes have no flanking whitespace. -/
def leadingFlag (ctx : Ctx) (n : Dom) : Bool :=
  if isBlockNode n then false
  else startsWithWs (textContent n) && !(flankedLeft ctx.prevRev)

/-- The trailing flanking-whitespace flag (for a whitespace-only node the
whole run counts as leading, as in the engine's edge analysis). -/
def trailingFlag (ctx : Ctx) (n : Dom) : Bool :=
  if isBlockNode n then false
  else
    endsWithWs (textContent n) && !(allJsWs (textContent n)) &&
      !(flankedRight ctx.next)

/-- The `blankReplacement` option (src lines 6-17): a blank block becomes
a blank line; a blank inline node whose text has whitespace that is not
flanking keeps one space, so that removing it cannot merge words. -/
def blankReplacement (n : Dom) (lead trail : Bool) : String :=
  if isBlockNode n then "\n\n"
  else if hasJsWs (textContent n) && !(trail || lead) then " "
  else ""

/-- The `listItems` numbering (src lines 180-188): inside an `ol` the
marker is the node's 1-based position among the parent's `li` element
children (`parent.children` filtered to `li`), otherwise the bullet
marker.  The position equals one more than the number of `li` elements
among the previous siblings. -/
def liMarker (ctx : Ctx) : String :=
  if ctx.parentTag = some "ol" then
    Nat.repr ((ctx.prevRev.filter isLiElem).length + 1) ++ ". "
  else "- "

/-! ## Rule dispatch and traversal -/

/-- Rule dispatch for an element node, in the engine's priority order:
the blank rule first, then the custom rules in reverse registration order
(src lines 42-193), then the applicable default rules, then the default
fallback.  Returns the replacement and the updated accumulator. -/
def replacementFor (ctx : Ctx) (tag : String) (attrs : List (String × String))
    (children : DomList) (content : String) (refs : Refs) : String × Refs :=
  let n := Dom.elem tag attrs children
  if isBlankNode n then
    (blankReplacement n (leadingFlag ctx n) (trailingFlag ctx n), refs)
  else if tag = "li" then
    (listItemReplacement content (liMarker ctx) (!(isNilList ctx.next)), refs)
  else if (tag = "ul" ∨ tag = "ol") ∧ prevElemTag ctx.prevRev = some "li" then
    (invalidNestedListsReplacement content, refs)
  else if tag = "a" ∧ prevSibEndsLinkStart ctx.prevRev then
    ((getAttr attrs "href").getD "null", refs)
  else if tag = "p" ∧ ctx.parentTag = some "li" then
    (content, refs)
  else if tag = "p" ∧ jsTrimString (textContent n) = "" then
    ("", refs)
  else if tag = "i" ∨ tag = "em" then
    (content, refs)
  else if tag = "b" ∨ tag = "strong" then
    (content, refs)
  else if tag = "img" then
    ("", refs)
  else if memStr tag ["h1", "h2", "h3", "h4", "h5", "h6"] then
    (headingReplacement tag content, refs)
  else if tag = "abbr" ∧ attrTruthy attrs "title" then
    abbrReplacement content ((getAttr attrs "title").getD "") refs
  else if tag = "a" ∧ attrTruthy attrs "href" then
    (linkReplacement content ((getAttr attrs "href").getD ""), refs)
  else if tag = "p" then
    ("\n\n" ++ content ++ "\n\n", refs)
  else if tag = "br" then
    ("  \n", refs)
  else if tag = "ul" ∨ tag = "ol" then
    (if ctx.parentTag = some "li" ∧ !(hasElem ctx.next) then "\n" ++ content
     else "\n\n" ++ content ++ "\n\n", refs)
  else if memStr tag blockTags then
    ("\n\n" ++ content ++ "\n\n", refs)
  else
    (content, refs)

mutual
/-- Modelled from the spec (section 4.1): convert one node — text through
the (identity) escape, an element by converting its children first and
passing the concatenation to the matching rule, re-attaching flanking
whitespace. -/
def convertNode (ctx : Ctx) (n : Dom) (refs : Refs) : String × Refs :=
  match n with
  | .text s => (escapeFn s, refs)
  | .elem tag attrs cs =>
    let inner := convertChildren (some tag) [] cs "" refs
    let lead := leadingFlag ctx (.elem tag attrs cs)
    let trail := trailingFlag ctx (.elem tag attrs cs)
    let content := if lead || trail then jsTrimString inner.1 else inner.1
    let rep := replacementFor ctx tag attrs cs content inner.2
    ((if lead then " " else "") ++ rep.1 ++ (if trail then " " else ""), rep.2)

/-- Modelled from the spec (section 4.1): depth-first left-to-right
conversion of a sibling list, joining fragments as they are produced. -/
def convertChildren (parentTag : Option String) (prevRev : List Dom)
    (l : DomList) (acc : String) (refs : Refs) : String × Refs :=
  match l with
  | .nil => (acc, refs)
  | .cons n rest =>
    let r := convertNode ⟨parentTag, prevRev, rest⟩ n refs
    convertChildren parentTag (n :: prevRev) rest (joinFrags acc r.1) r.2
end

/-! ## The top-level conversion -/

/-- The conversion with the rule object's accumulator made explicit: the
`abbr` rule's `references` object persists on the shared service between
calls, so the function is modelled as state passing.  Strips the removed
elements, converts the tree, joins on the `abbr` rule's appended
references, applies the engine's output cleanup and the repository's
`postProcess`. -/
def htmlToGovspeakS (refs : Refs) (frag : DomList) : String × Refs :=
  let body := convertChildren none [] (stripList frag) "" refs
  let app := abbrAppend body.2
  (postProcess (engineTrim (joinFrags body.1 app.1)), app.2)

/-- `htmlToGovspeak` (src lines 221-224) on a parsed fragment, from the
initial (empty) accumulator the service is created with. -/
def htmlToGovspeak (frag : DomList) : String :=
  (htmlToGovspeakS [] frag).1

/-- The parse of a markup-free string (no `<` or `&`): a single text
node, as a standards-compliant parser produces for plain text.  Used to
feed converted output back through the conversion. -/
def textDoc (s : String) : DomList := .cons (.text s) .nil

/-- Whether the second list starts with the first. -/
def startsWithSeq : List Char → List Char → Bool
  | [], _ => true
  | _ :: _, [] => false
  | p :: ps, c :: cs => (p = c) && startsWithSeq ps cs

/-- Whether a character sequence occurs contiguously in a list. -/
def containsSeq (pat : List Char) : List Char → Bool
  | [] => pat.isEmpty
  | c :: rest => startsWithSeq pat (c :: rest) || containsSeq pat rest

/-! ## Helper lemmas on strings and lists -/

theorem data_append (s t : String) : (s ++ t).data = s.data ++ t.data := by
  cases s; cases t; rfl

theorem str_ext {s t : String} (h : s.data = t.data) : s = t := by
  cases s; cases t; cases h; rfl

theorem dropWhile_head_false {p : Char → Bool} :
    ∀ {l : List Char} {c : Char} {t : List Char},
      List.dropWhile p l = c :: t → p c = false
  | [], c, t, h => by simp [List.dropWhile] at h
  | x :: xs, c, t, h => by
    by_cases hx : p x = true
    · rw [List.dropWhile_cons, if_pos hx] at h
      exact dropWhile_head_false h
    · rw [List.dropWhile_cons, if_neg hx] at h
      injection h with h1 _
      subst h1
      simpa using hx

theorem dropWhile_eq_self_of_head {p : Char → Bool} {l : List Char}
    (h : ∀ c t, l = c :: t → p c = false) : l.dropWhile p = l := by
  cases l with
  | nil => rfl
  | cons c t =>
    rw [List.dropWhile_cons, if_neg]
    simp [h c t rfl]

theorem takeWhile_nil_of_head {p : Char → Bool} {l : List Char}
    (h : ∀ c t, l = c :: t → p c = false) : l.takeWhile p = [] := by
  cases l with
  | nil => rfl
  | cons c t =>
    rw [List.takeWhile_cons, if_neg]
    simp [h c t rfl]

theorem dropWhile_idem (p : Char → Bool) (l : List Char) :
    (l.dropWhile p).dropWhile p = l.dropWhile p := by
  cases hm : l.dropWhile p with
  | nil => rfl
  | cons c t =>
    have hc : p c = false := dropWhile_head_false hm
    rw [List.dropWhile_cons, if_neg (by simp [hc])]


theorem trim_source_split (l : List Char) :
    ∃ u, l.dropWhile isJsWs = trimChars l ++ u := by
  refine ⟨((l.dropWhile isJsWs).reverse.takeWhile isJsWs).reverse, ?_⟩
  have h := List.takeWhile_append_dropWhile isJsWs (l.dropWhile isJsWs).reverse
  calc l.dropWhile isJsWs
      = ((l.dropWhile isJsWs).reverse).reverse := (List.reverse_reverse _).symm
    _ = ((l.dropWhile isJsWs).reverse.takeWhile isJsWs ++
          (l.dropWhile isJsWs).reverse.dropWhile isJsWs).reverse := by rw [h]
    _ = ((l.dropWhile isJsWs).reverse.dropWhile isJsWs).reverse ++
          ((l.dropWhile isJsWs).reverse.takeWhile isJsWs).reverse := by
        rw [List.reverse_append]
    _ = trimChars l ++
          ((l.dropWhile isJsWs).reverse.takeWhile isJsWs).reverse := rfl

theorem trimChars_head_false {l : List Char} {c : Char} {t : List Char}
    (h : trimChars l = c :: t) : isJsWs c = false := by
  obtain ⟨u, hu⟩ := trim_source_split l
  rw [h] at hu
  exact dropWhile_head_false hu

theorem trimChars_dropWhile (l : List Char) :
    (trimChars l).dropWhile isJsWs = trimChars l :=
  dropWhile_eq_self_of_head (fun _ _ h => trimChars_head_false h)

theorem trimChars_rev_dropWhile (l : List Char) :
    (trimChars l).reverse.dropWhile isJsWs = (trimChars l).reverse := by
  show (((l.dropWhile isJsWs).reverse.dropWhile isJsWs).reverse.reverse).dropWhile
        isJsWs =
      ((l.dropWhile isJsWs).reverse.dropWhile isJsWs).reverse.reverse
  rw [List.reverse_reverse]
  rw [dropWhile_idem]

theorem trimChars_idem (l : List Char) : trimChars (trimChars l) = trimChars l := by
  show dropTrailingWhile isJsWs ((trimChars l).dropWhile isJsWs) = trimChars l
  rw [trimChars_dropWhile]
  show ((trimChars l).reverse.dropWhile isJsWs).reverse = trimChars l
  rw [trimChars_rev_dropWhile, List.reverse_reverse]

theorem jsTrimString_idem (s : String) :
    jsTrimString (jsTrimString s) = jsTrimString s := by
  apply str_ext
  show trimChars (trimChars s.data) = trimChars s.data
  exact trimChars_idem _

theorem nl_ws {c : Char} (h : isNl c = true) : isJsWs c = true := by
  simp only [isNl, decide_eq_true_eq] at h
  subst h
  decide

theorem tabcrnl_ws {c : Char} (h : isTabCrNl c = true) : isJsWs c = true := by
  simp only [isTabCrNl, decide_eq_true_eq] at h
  rcases h with h | h | h <;> (subst h; decide)

theorem trimmed_facts {o : String} (h : jsTrimString o = o) :
    o.data.dropWhile isJsWs = o.data ∧
      o.data.reverse.dropWhile isJsWs = o.data.reverse := by
  have hd : o.data = trimChars o.data := congrArg String.data h.symm
  constructor
  · rw [hd]; exact trimChars_dropWhile _
  · rw [hd]; exact trimChars_rev_dropWhile _

theorem trimmed_head_not {o : String} (h : jsTrimString o = o) {c : Char}
    {t : List Char} (he : o.data = c :: t) : isJsWs c = false := by
  have hf := (trimmed_facts h).1
  rw [he] at hf
  exact dropWhile_head_false hf

theorem trimmed_last_not {o : String} (h : jsTrimString o = o) {c : Char}
    {t : List Char} (he : o.data.reverse = c :: t) : isJsWs c = false := by
  have hf := (trimmed_facts h).2
  rw [he] at hf
  exact dropWhile_head_false hf

theorem not_nl_of_trimmed_head {o : String} (h : jsTrimString o = o) {c : Char}
    {t : List Char} (he : o.data = c :: t) : isNl c = false := by
  have hw := trimmed_head_not h he
  cases hnl : isNl c
  · rfl
  · exact absurd (nl_ws hnl) (by simp [hw])

theorem not_nl_of_trimmed_last {o : String} (h : jsTrimString o = o) {c : Char}
    {t : List Char} (he : o.data.reverse = c :: t) : isNl c = false := by
  have hw := trimmed_last_not h he
  cases hnl : isNl c
  · rfl
  · exact absurd (nl_ws hnl) (by simp [hw])

theorem not_tabcrnl_of_trimmed_head {o : String} (h : jsTrimString o = o)
    {c : Char} {t : List Char} (he : o.data = c :: t) : isTabCrNl c = false := by
  have hw := trimmed_head_not h he
  cases hx : isTabCrNl c
  · rfl
  · exact absurd (tabcrnl_ws hx) (by simp [hw])

theorem runStart_zero {o : String} (h : jsTrimString o = o) :
    newlineRunStart o = 0 := by
  show (o.data.takeWhile isNl).length = 0
  rw [takeWhile_nil_of_head (fun c t he => not_nl_of_trimmed_head h he)]
  rfl

theorem runEnd_zero {o : String} (h : jsTrimString o = o) :
    newlineRunEnd o = 0 := by
  show (o.data.reverse.takeWhile isNl).length = 0
  rw [takeWhile_nil_of_head (fun c t he => not_nl_of_trimmed_last h he)]
  rfl

theorem joinFrags_data (a b : String) :
    (joinFrags a b).data =
      dropTrailingWhile isNl a.data ++
        List.replicate (min 2 (max (newlineRunEnd a) (newlineRunStart b))) '\n' ++
        b.data.dropWhile isNl := by
  show (String.mk (dropTrailingWhile isNl a.data) ++
      String.mk (List.replicate (min 2 (max (newlineRunEnd a) (newlineRunStart b))) '\n') ++
      String.mk (b.data.dropWhile isNl)).data = _
  rw [data_append, data_append]

theorem join_empty_left {o : String} (h : jsTrimString o = o) :
    joinFrags "" o = o := by
  apply str_ext
  rw [joinFrags_data]
  have h1 : o.data.dropWhile isNl = o.data :=
    dropWhile_eq_self_of_head (fun c t he => not_nl_of_trimmed_head h he)
  have h2 : newlineRunStart o = 0 := runStart_zero h
  rw [h1, h2]
  rfl

theorem join_empty_right {o : String} (h : jsTrimString o = o) :
    joinFrags o "" = o := by
  apply str_ext
  rw [joinFrags_data]
  have h1 : dropTrailingWhile isNl o.data = o.data := by
    show (o.data.reverse.dropWhile isNl).reverse = o.data
    rw [dropWhile_eq_self_of_head (fun c t he => not_nl_of_trimmed_last h he),
      List.reverse_reverse]
  have h2 : newlineRunEnd o = 0 := runEnd_zero h
  rw [h1, h2]
  have h3 : newlineRunStart "" = 0 := rfl
  rw [h3]
  simp

theorem engineTrim_fixed {o : String} (h : jsTrimString o = o) :
    engineTrim o = o := by
  apply str_ext
  show dropTrailingWhile isJsWs (o.data.dropWhile isTabCrNl) = o.data
  rw [dropWhile_eq_self_of_head (fun c t he => not_tabcrnl_of_trimmed_head h he)]
  show (o.data.reverse.dropWhile isJsWs).reverse = o.data
  rw [(trimmed_facts h).2, List.reverse_reverse]

theorem postProcess_fixed {o : String} (h1 : extractHeadingsFromLists o = o)
    (h2 : removeBrParagraphs o = o) (h3 : jsTrimString o = o) :
    postProcess o = o := by
  show jsTrimString (removeBrParagraphs (extractHeadingsFromLists o)) = o
  rw [h1, h2, h3]

theorem postProcess_trimmed (g : String) :
    jsTrimString (postProcess g) = postProcess g := by
  show jsTrimString
      (jsTrimString (removeBrParagraphs (extractHeadingsFromLists g))) =
    postProcess g
  rw [jsTrimString_idem]
  rfl

theorem govspeak_trimmed (frag : DomList) :
    jsTrimString (htmlToGovspeak frag) = htmlToGovspeak frag :=
  postProcess_trimmed _

theorem textDoc_body (o : String) :
    convertChildren none [] (stripList (textDoc o)) "" [] =
      (joinFrags "" o, []) := by
  simp [textDoc, stripList, convertChildren, convertNode, escapeFn]

theorem textDoc_fixed {o : String} (ht : jsTrimString o = o)
    (h1 : extractHeadingsFromLists o = o) (h2 : removeBrParagraphs o = o) :
    htmlToGovspeak (textDoc o) = o := by
  show (htmlToGovspeakS [] (textDoc o)).1 = o
  simp only [htmlToGovspeakS]
  rw [textDoc_body]
  show postProcess (engineTrim (joinFrags (joinFrags "" o)
      (abbrAppend ([] : Refs)).1)) = o
  rw [join_empty_left ht]
  rw [show abbrAppend ([] : Refs) = ("", ([] : Refs)) from rfl]
  show postProcess (engineTrim (joinFrags o "")) = o
  rw [join_empty_right ht, engineTrim_fixed ht]
  exact postProcess_fixed h1 h2 ht

theorem abbrAppend_snd (refs : Refs) : (abbrAppend refs).2 = [] := by
  unfold abbrAppend
  split <;> simp_all

theorem htmlToGovspeakS_snd (refs : Refs) (frag : DomList) :
    (htmlToGovspeakS refs frag).2 = [] := by
  simp only [htmlToGovspeakS]
  exact abbrAppend_snd _

theorem stripList_idem : ∀ l : DomList, stripList (stripList l) = stripList l
  | .nil => rfl
  | .cons (.text s) rest => by
    simp [stripList, stripList_idem rest]
  | .cons (.elem t a cs) rest => by
    by_cases h : memStr t elementsToRemove = true
    · simp [stripList, h, stripList_idem rest]
    · simp [stripList, h, stripList_idem cs, stripList_idem rest]

theorem jsGet_jsSetRaw (k v : String) :
    ∀ refs : Refs, jsGet (jsSetRaw refs k v) k = v
  | [] => by simp [jsSetRaw, jsGet]
  | (k0, v0) :: rest => by
    by_cases h : k0 = k
    · simp [jsSetRaw, jsGet, h]
    · simp [jsSetRaw, jsGet, h, jsGet_jsSetRaw k v rest]

theorem filter_reverse_length (p : Dom → Bool) :
    ∀ l : List Dom, (l.reverse.filter p).length = (l.filter p).length
  | [] => rfl
  | x :: xs => by
    rw [List.reverse_cons, List.filter_append, List.filter_cons,
      List.length_append, filter_reverse_length p xs]
    cases hp : p x <;> simp [hp, Nat.add_comm]


/-! ## The claims -/

/-- C1: the heading rule (src lines 81-96) maps h1 and h2 to a level-2
heading containing the converted content, h3, h4 and h5 to a level-3
heading, and h6 to plain text with no heading marker, and in every case
the result is wrapped in a blank line before and after; two whole-document
conversions show the wrapping in context. -/
theorem c1_heading_levels :
    ∀ X : String,
      (headingReplacement "h1" X = "\n\n## " ++ X ++ "\n\n") ∧
      (headingReplacement "h2" X = "\n\n## " ++ X ++ "\n\n") ∧
      (headingReplacement "h3" X = "\n\n### " ++ X ++ "\n\n") ∧
      (headingReplacement "h4" X = "\n\n### " ++ X ++ "\n\n") ∧
      (headingReplacement "h5" X = "\n\n### " ++ X ++ "\n\n") ∧
      (headingReplacement "h6" X = "\n\n" ++ X ++ "\n\n") ∧
      htmlToGovspeak (dl [el "h3" [txt "Title"]]) = "### Title" ∧
      htmlToGovspeak (dl [el "h6" [txt "Six"], el "p" [txt "Para"]]) =
        "Six\n\nPara" :=
  fun X => ⟨rfl, rfl, rfl, rfl, rfl, rfl, by decide, by decide⟩

/-- C2: the link rule (src lines 42-53) emits exactly `[T](href)` when the
converted content T has non-empty trim, and the empty string (neither
brackets nor the href) when T trims to empty; whole-document conversions
show both cases. -/
theorem c2_link_rule (T U : String) :
    (jsTrimString T ≠ "" → linkReplacement T U = "[" ++ T ++ "](" ++ U ++ ")") ∧
    (jsTrimString T = "" → linkReplacement T U = "") ∧
    htmlToGovspeak (dl [el "p" [elA "a" [("href", "https://ex")] [txt "Hi"]]]) =
      "[Hi](https://ex)" ∧
    htmlToGovspeak (dl [el "p" [txt "A", elA "a" [("href", "https://ex")] [],
        txt "B"]]) = "AB" := by
  refine ⟨fun h => ?_, fun h => ?_, by decide, by decide⟩
  · show (if jsTrimString T = "" then "" else "[" ++ T ++ "](" ++ U ++ ")") = _
    rw [if_neg h]
  · show (if jsTrimString T = "" then "" else "[" ++ T ++ "](" ++ U ++ ")") = ""
    rw [if_pos h]

/-- Witness for C2 at concrete inputs. -/
theorem c2_link_rule_witness :
    linkReplacement "Hi" "u" = "[" ++ "Hi" ++ "](" ++ "u" ++ ")" ∧
    linkReplacement " " "u" = "" :=
  ⟨(c2_link_rule "Hi" "u").1 (by decide), (c2_link_rule " " "u").2.1 (by decide)⟩

/-- C3 (amended): the abbr rule (src lines 55-76) emits the abbreviation
text unchanged and records text → title in its plain-object accumulator
(silently dropping the special key `__proto__`); at document end a
non-empty accumulator appends a blank line then one reference line per
abbreviation in JavaScript key-enumeration order, which is the order
first encountered whenever no abbreviation text is an array-index string,
and the accumulator is cleared; an empty accumulator appends nothing. -/
theorem c3_abbr_references (refs : Refs) (c t : String) :
    (abbrReplacement c t refs).1 = c ∧
    (c ≠ "__proto__" → jsGet (jsSet refs c t) c = t) ∧
    (refs ≠ [] → (∀ k ∈ refs.map Prod.fst, isArrayIndexKey k = false) →
      (abbrAppend refs).1 =
        "\n\n" ++ (refs.map Prod.fst).foldl
          (fun acc k => acc ++ "*[" ++ k ++ "]: " ++ jsGet refs k ++ "\n") "" ∧
      (abbrAppend refs).2 = []) ∧
    abbrAppend [] = ("", []) ∧
    htmlToGovspeak
        (dl [el "p" [elA "abbr" [("title", "Majesty Government")] [txt "HMG"],
          txt " and ", elA "abbr" [("title", "United Kingdom")] [txt "UK"]]]) =
      "HMG and UK\n\n*[HMG]: Majesty Government\n*[UK]: United Kingdom" := by
  refine ⟨rfl, fun hc => ?_, fun hne hidx => ?_, rfl, by decide⟩
  · show jsGet (if c = "__proto__" then refs else jsSetRaw refs c t) c = t
    rw [if_neg hc]
    exact jsGet_jsSetRaw c t refs
  · have hk : jsKeys refs = refs.map Prod.fst := by
      show sortIndexKeys ((refs.map Prod.fst).filter isArrayIndexKey) ++
          (refs.map Prod.fst).filter (fun k => !(isArrayIndexKey k)) =
        refs.map Prod.fst
      rw [List.filter_eq_nil_iff.mpr (by intro a ha; simp [hidx a ha]),
        List.filter_eq_self.mpr (by intro a ha; simp [hidx a ha])]
      rfl
    constructor
    · unfold abbrAppend
      rw [if_neg hne, hk]
    · exact abbrAppend_snd refs

/-- Witness for C3 (amended) at concrete inputs. -/
theorem c3_abbr_references_witness :
    jsGet (jsSet [] "HMG" "MG") "HMG" = "MG" ∧
    (abbrAppend [("HMG", "MG"), ("UK", "UKD")]).1 =
      "\n\n" ++ ([("HMG", "MG"), ("UK", "UKD")].map Prod.fst).foldl
        (fun acc k =>
          acc ++ "*[" ++ k ++ "]: " ++ jsGet [("HMG", "MG"), ("UK", "UKD")] k ++ "\n")
        "" :=
  ⟨(c3_abbr_references [] "HMG" "MG").2.1 (by decide),
   ((c3_abbr_references [("HMG", "MG"), ("UK", "UKD")] "x" "y").2.2.1
      (by decide) (by decide)).1⟩

/-- Counterexample for C3 as stated: with abbreviation texts `2` then `1`
(array-index keys), the reference block lists `*[1]` before `*[2]`, not
in first-encountered order; and the abbreviation text `__proto__` is not
recorded at all, so no reference block appears. -/
theorem c3_enumeration_counterexample :
    htmlToGovspeak (dl [el "p" [elA "abbr" [("title", "b")] [txt "2"],
        txt " ", elA "abbr" [("title", "a")] [txt "1"]]]) =
      "2 1\n\n*[1]: a\n*[2]: b" ∧
    htmlToGovspeak (dl [el "p" [elA "abbr" [("title", "b")] [txt "2"],
        txt " ", elA "abbr" [("title", "a")] [txt "1"]]]) ≠
      "2 1\n\n*[2]: b\n*[1]: a" ∧
    htmlToGovspeak (dl [el "p" [elA "abbr" [("title", "T")] [txt "__proto__"]]]) =
      "__proto__" :=
  ⟨by decide, by decide, by decide⟩

/-- C4: inside an `ol`, a list item receives as numeric marker its 1-based
position among the parent element children filtered to `li` only (src
lines 180-188): the marker is one more than the number of `li` elements
among the preceding siblings, the filtered child list places the item at
exactly that position, non-`li` siblings leave the numbering unchanged,
and the `ol`-with-`script` document numbers 1 and 2 with no text from the
`script`. -/
theorem c4_ol_numbering (before after : List Dom)
    (attrs : List (String × String)) (cs : DomList) :
    liMarker ⟨some "ol", before.reverse, dl after⟩ =
      Nat.repr ((before.filter isLiElem).length + 1) ++ ". " ∧
    (before ++ Dom.elem "li" attrs cs :: after).filter isLiElem =
      before.filter isLiElem ++ Dom.elem "li" attrs cs :: after.filter isLiElem ∧
    (∀ s : Dom, isLiElem s = false →
      liMarker ⟨some "ol", s :: before.reverse, dl after⟩ =
        liMarker ⟨some "ol", before.reverse, dl after⟩) ∧
    htmlToGovspeak (dl [el "ol" [el "li" [txt "A"], el "script" [txt "x"],
        el "li" [txt "B"]]]) = "1. A\n2. B" := by
  refine ⟨?_, ?_, fun s hs => ?_, by decide⟩
  · show (if (some "ol" : Option String) = some "ol" then
        Nat.repr ((before.reverse.filter isLiElem).length + 1) ++ ". "
      else "- ") = _
    rw [if_pos rfl, filter_reverse_length]
  · simp [List.filter_append, List.filter_cons, isLiElem]
  · simp [liMarker, List.filter_cons, hs]

/-- Witness for C4: a `script` sibling does not shift the numbering. -/
theorem c4_ol_numbering_witness :
    liMarker ⟨some "ol",
        Dom.elem "script" [] (dl [txt "x"]) :: ([] : List Dom).reverse, dl []⟩ =
      liMarker ⟨some "ol", ([] : List Dom).reverse, dl []⟩ :=
  (c4_ol_numbering [] [] [] DomList.nil).2.2.1
    (Dom.elem "script" [] (dl [txt "x"])) (by decide)

/-- C5 (amended): postProcess (src lines 214-219) applies exactly three
whole-document transformations, in this order: heading de-listing first,
then the orphaned line-break collapse, then trimming; with the documented
behaviours of the three steps. -/
theorem c5_postprocess_sequence :
    (∀ s : String, postProcess s =
      jsTrimString (removeBrParagraphs (extractHeadingsFromLists s))) ∧
    extractHeadingsFromLists "1. ## Heading" = "## Heading" ∧
    removeBrParagraphs "Text\n\n  \n\nMore Text" = "Text\n\nMore Text" ∧
    jsTrimString "  a\n" = "a" :=
  ⟨fun _ => rfl, by decide, by decide, by decide⟩

/-- Counterexample for C5 as stated: the claimed order (line-break
collapse before heading de-listing) gives a different result on
`"2.\n  \n##X"` - the code leaves `"2.\n##X"`, the claimed order would
produce `"##X"`. -/
theorem c5_order_counterexample :
    postProcess "2.\n  \n##X" = "2.\n##X" ∧
    postProcessClaimedOrder "2.\n  \n##X" = "##X" ∧
    postProcess "2.\n  \n##X" ≠ postProcessClaimedOrder "2.\n  \n##X" :=
  ⟨by decide, by decide, by decide⟩

/-- C6: converting one input and then another yields for the second the
same output as converting it alone - the abbr accumulator, though it
lives on the shared rule object, is always left empty by the finalizer
before the function returns, so no state leaks between sequential calls. -/
theorem c6_sequential_independence (d1 d2 : DomList) :
    (htmlToGovspeakS (htmlToGovspeakS [] d1).2 d2).1 = htmlToGovspeak d2 := by
  rw [htmlToGovspeakS_snd]
  rfl

/-- C7: elements of the strip set (src lines 21-34) are removed before
traversal, so their entire subtrees cannot influence the output, and in
particular their text appears nowhere in it. -/
theorem c7_strip_removed :
    (∀ frag : DomList, htmlToGovspeak frag = htmlToGovspeak (stripList frag)) ∧
    htmlToGovspeak (dl [el "p" [txt "Hello", el "script" [txt "EVIL"]]]) =
      "Hello" ∧
    containsSeq "EVIL".data
      (htmlToGovspeak (dl [el "p" [txt "Hello",
        el "script" [txt "EVIL"]]])).data = false := by
  refine ⟨fun frag => ?_, by decide, by decide⟩
  show (htmlToGovspeakS [] frag).1 = (htmlToGovspeakS [] (stripList frag)).1
  simp only [htmlToGovspeakS]
  rw [stripList_idem]

/-- C8: the conversion is a total function - every parsed input, however
unusual, produces a string; unmatched elements fall through to the
generic fallback, as the unknown-tag and orphan-list-item documents
show. -/
theorem c8_never_throws :
    (∀ (frag : DomList) (refs : Refs), ∃ out, htmlToGovspeakS refs frag = out) ∧
    htmlToGovspeak (dl [el "blink" [txt "Hi"]]) = "Hi" ∧
    htmlToGovspeak (dl [el "li" [txt "Orphan"]]) = "- Orphan" :=
  ⟨fun frag refs => ⟨htmlToGovspeakS refs frag, rfl⟩, by decide, by decide⟩

/-- C9 (amended): feeding a conversion output back through the conversion
(as the single text node its markup-free text parses to) returns it
unchanged, provided the output is a fixed point of the two post-processing
rewrites; without that proviso idempotence fails (see the
counterexample). -/
theorem c9_reconversion_stable (frag : DomList)
    (h1 : extractHeadingsFromLists (htmlToGovspeak frag) = htmlToGovspeak frag)
    (h2 : removeBrParagraphs (htmlToGovspeak frag) = htmlToGovspeak frag) :
    htmlToGovspeak (textDoc (htmlToGovspeak frag)) = htmlToGovspeak frag :=
  textDoc_fixed (govspeak_trimmed frag) h1 h2

/-- Witness for C9 (amended) on a plain paragraph. -/
theorem c9_reconversion_stable_witness :
    htmlToGovspeak (textDoc (htmlToGovspeak (dl [el "p" [txt "Hello"]]))) =
      htmlToGovspeak (dl [el "p" [txt "Hello"]]) :=
  c9_reconversion_stable (dl [el "p" [txt "Hello"]]) (by decide) (by decide)

/-- Counterexample for C9 as stated: the plain paragraph
`<p>3. 4. ## x</p>` converts to `"3. ## x"`, and converting that output
again yields `"## x"` - the heading de-listing rewrite fires on literal
text, so conversion is not idempotent even on plain structures. -/
theorem c9_idempotence_counterexample :
    htmlToGovspeak (dl [el "p" [txt "3. 4. ## x"]]) = "3. ## x" ∧
    htmlToGovspeak (textDoc (htmlToGovspeak (dl [el "p" [txt "3. 4. ## x"]]))) =
      "## x" ∧
    ("## x" : String) ≠ "3. ## x" :=
  ⟨by decide, by decide, by decide⟩

/-- C10: the escape step (src line 38) is the identity, so
Markdown-significant characters in pasted text are emitted verbatim. -/
theorem c10_identity_escape :
    (∀ s : String, escapeFn s = s) ∧
    htmlToGovspeak (textDoc "*bold* _it_ # [x]") = "*bold* _it_ # [x]" ∧
    htmlToGovspeak (dl [el "p" [txt "2 * 2 [note]"]]) = "2 * 2 [note]" :=
  ⟨fun _ => rfl, by decide, by decide⟩

end Govspeak
